import Mathlib

/-!
Shallow embedding of the in-process message broker core
(`pkg/broker`: message.go, queue.go, topic.go, broker.go, worker.go).

Modelling conventions:
* `time.Time` is modelled as a `Nat` instant; the Go zero time is `0`,
  `time.Now()` is an explicit `now : Nat` parameter, `time.Duration` is a `Nat`.
* `uuid.New().String()` is modelled by explicit fresh-string parameters
  (or a generator `gen : Nat → String` threaded with a counter where a
  function draws several uuids); the uuid library guarantees globally
  unique, non-empty strings, which theorems take as hypotheses.
* Go `int` counters are `Int` (overflow of 64-bit counters is ignored,
  matching the source which never guards it).
* `map[string]string` metadata is an association list where the most
  recent insertion shadows older entries (`SetMetadata` overwrites);
  a `nil` map and an empty map are observationally equal through
  `SetMetadata`/`GetMetadata`, so both are the empty list.
* Pointer mutation is explicit state passing: each operation returns the
  updated value(s).  The dead-letter deposit that Go fires in a goroutine
  is modelled by its eventual effect, a synchronous enqueue into the
  stored dead-letter queue.
-/

set_option linter.unusedVariables false

namespace BrokerModel

/-- Error values from errors.go (`ErrTopicNotFound` etc.). -/
inductive BrokerError where
  | topicNotFound
  | queueNotFound
  | messageNotFound
  | invalidReceiptHandle
  | queueEmpty
deriving DecidableEq

/-- The `Message` struct from message.go.  `Payload` (`json.RawMessage`,
a byte slice) is a list of bytes; `MType` embeds the Go field `Type`. -/
structure Message where
  ID            : String
  MType         : String
  Payload       : List Nat
  Metadata      : List (String × String)
  Timestamp     : Nat
  RetryCount    : Int
  VisibleAt     : Nat
  ReceiptHandle : String
deriving DecidableEq

/-- `Message.SetMetadata`: map insert, overwriting any previous binding
(the new entry shadows older ones in the association list). -/
def Message.SetMetadata (m : Message) (key value : String) : Message :=
  { m with Metadata := (key, value) :: m.Metadata }

/-- `Message.GetMetadata`: missing key yields the empty string. -/
def Message.GetMetadata (m : Message) (key : String) : String :=
  match m.Metadata.lookup key with
  | some v => v
  | none => ""

/-- `Message.Clone`: deep copy of payload and metadata, fresh id
(`freshId` stands for `uuid.New().String()`), retry count reset to 0,
timestamp preserved; `VisibleAt`/`ReceiptHandle` are not copied, so they
take their zero values. -/
def Message.Clone (m : Message) (freshId : String) : Message :=
  { ID := freshId
    MType := m.MType
    Payload := m.Payload
    Metadata := m.Metadata
    Timestamp := m.Timestamp
    RetryCount := 0
    VisibleAt := 0
    ReceiptHandle := "" }

/-- `Message.IsVisible`: `m.VisibleAt.IsZero() || time.Now().After(m.VisibleAt)`. -/
def Message.IsVisible (m : Message) (now : Nat) : Bool :=
  m.VisibleAt == 0 || decide (m.VisibleAt < now)

/-- The `QueueStats` struct from queue.go. -/
structure QueueStats where
  TotalReceived  : Int
  TotalProcessed : Int
  TotalFailed    : Int
  CurrentSize    : Int
deriving DecidableEq

/-- The `Queue` struct from queue.go.  `deadLetterQueue *Queue` makes the
type recursive, hence an inductive with explicit projections below. -/
inductive Queue : Type where
  | mk (name : String) (messages : List Message) (visibilityTimeout : Nat)
      (maxRetries : Int) (deadLetterQueue : Option Queue) (stats : QueueStats) : Queue

def Queue.name : Queue → String
  | .mk n _ _ _ _ _ => n

def Queue.messages : Queue → List Message
  | .mk _ ms _ _ _ _ => ms

def Queue.visibilityTimeout : Queue → Nat
  | .mk _ _ v _ _ _ => v

def Queue.maxRetries : Queue → Int
  | .mk _ _ _ r _ _ => r

def Queue.deadLetterQueue : Queue → Option Queue
  | .mk _ _ _ _ d _ => d

def Queue.stats : Queue → QueueStats
  | .mk _ _ _ _ _ s => s

/-- Functional update of the `messages` field. -/
def Queue.setMessages : Queue → List Message → Queue
  | .mk n _ v r d s, ms => .mk n ms v r d s

/-- Functional update of the `stats` field. -/
def Queue.setStats : Queue → QueueStats → Queue
  | .mk n ms v r d _, s => .mk n ms v r d s

/-- Functional update of the `deadLetterQueue` field. -/
def Queue.setDLQ : Queue → Option Queue → Queue
  | .mk n ms v r _ s, d => .mk n ms v r d s

/-- Functional update of the `visibilityTimeout` field (used by options). -/
def Queue.setVisibilityTimeout : Queue → Nat → Queue
  | .mk n ms _ r d s, v => .mk n ms v r d s

/-- Functional update of the `maxRetries` field (used by options). -/
def Queue.setMaxRetries : Queue → Int → Queue
  | .mk n ms v _ d s, r => .mk n ms v r d s

@[simp] theorem Queue.name_mk (n ms v r d s) : (Queue.mk n ms v r d s).name = n := rfl
@[simp] theorem Queue.messages_mk (n ms v r d s) : (Queue.mk n ms v r d s).messages = ms := rfl
@[simp] theorem Queue.visibilityTimeout_mk (n ms v r d s) :
    (Queue.mk n ms v r d s).visibilityTimeout = v := rfl
@[simp] theorem Queue.maxRetries_mk (n ms v r d s) : (Queue.mk n ms v r d s).maxRetries = r := rfl
@[simp] theorem Queue.deadLetterQueue_mk (n ms v r d s) :
    (Queue.mk n ms v r d s).deadLetterQueue = d := rfl
@[simp] theorem Queue.stats_mk (n ms v r d s) : (Queue.mk n ms v r d s).stats = s := rfl

@[simp] theorem Queue.setMessages_def (q : Queue) (ms : List Message) :
    q.setMessages ms = .mk q.name ms q.visibilityTimeout q.maxRetries q.deadLetterQueue q.stats := by
  cases q; rfl

@[simp] theorem Queue.setStats_def (q : Queue) (s : QueueStats) :
    q.setStats s = .mk q.name q.messages q.visibilityTimeout q.maxRetries q.deadLetterQueue s := by
  cases q; rfl

@[simp] theorem Queue.setDLQ_def (q : Queue) (d : Option Queue) :
    q.setDLQ d = .mk q.name q.messages q.visibilityTimeout q.maxRetries d q.stats := by
  cases q; rfl

/-- `Queue.Enqueue`: assigns an id (`freshId` stands for `uuid.New().String()`)
when the message has none, defaults a zero timestamp to `now`, appends to the
tail, bumps `TotalReceived` and refreshes `CurrentSize`.  Always returns nil
error (`.ok ()`): the queue is unbounded. -/
def Queue.Enqueue (q : Queue) (freshId : String) (now : Nat) (msg : Message) :
    Queue × Except BrokerError Unit :=
  let msg := if msg.ID = "" then { msg with ID := freshId } else msg
  let msg := if msg.Timestamp = 0 then { msg with Timestamp := now } else msg
  let ms := q.messages ++ [msg]
  ((q.setMessages ms).setStats
    { q.stats with
        TotalReceived := q.stats.TotalReceived + 1
        CurrentSize := Int.ofNat ms.length },
   .ok ())

/-- The in-place field updates `Receive` applies to the message it leases:
`visible_at = now + visibility_timeout`, a fresh receipt handle, and a
retry-count bump. -/
def leaseUpdate (m : Message) (vt now : Nat) (handle : String) : Message :=
  { m with VisibleAt := now + vt, ReceiptHandle := handle, RetryCount := m.RetryCount + 1 }

/-- The scan loop inside `Queue.Receive`: finds the first visible message,
leases it in place, and returns the updated sequence together with the
leased message. -/
def receiveScan (vt now : Nat) (handle : String) : List Message → Option (List Message × Message)
  | [] => none
  | m :: rest =>
    if m.IsVisible now then
      let m2 := leaseUpdate m vt now handle
      some (m2 :: rest, m2)
    else
      match receiveScan vt now handle rest with
      | none => none
      | some (rest2, found) => some (m :: rest2, found)

/-- `Queue.Receive`: result is `(updated queue, message or none, error)`;
the Go function always returns a nil error. -/
def Queue.Receive (q : Queue) (now : Nat) (freshHandle : String) :
    Queue × Option Message × Option BrokerError :=
  match receiveScan q.visibilityTimeout now freshHandle q.messages with
  | some (ms, m) => (q.setMessages ms, some m, none)
  | none => (q, none, none)

/-- Removal of the first message satisfying `p` (`none` when no message
matches), shared shape of the scan-and-delete loops in `Acknowledge` and
`moveToDeadLetterQueueLocked`. -/
def removeFirstBy (p : Message → Bool) : List Message → Option (List Message)
  | [] => none
  | m :: rest => if p m then some rest else (removeFirstBy p rest).map (m :: ·)

/-- `Queue.Acknowledge`: removes the first message whose receipt handle
matches exactly, bumps `TotalProcessed`, refreshes `CurrentSize`; when no
message holds the handle it returns `ErrInvalidReceiptHandle`. -/
def Queue.Acknowledge (q : Queue) (receiptHandle : String) : Queue × Except BrokerError Unit :=
  match removeFirstBy (fun m => m.ReceiptHandle == receiptHandle) q.messages with
  | some ms =>
    ((q.setMessages ms).setStats
      { q.stats with
          TotalProcessed := q.stats.TotalProcessed + 1
          CurrentSize := Int.ofNat ms.length },
     .ok ())
  | none => (q, .error .invalidReceiptHandle)

/-- The in-place mutation in `Queue.Nack`'s under-budget branch: the first
message holding the handle gets `VisibleAt` and `ReceiptHandle` cleared. -/
def clearFirstByHandle (h : String) : List Message → List Message
  | [] => []
  | m :: rest =>
    if m.ReceiptHandle == h then { m with VisibleAt := 0, ReceiptHandle := "" } :: rest
    else m :: clearFirstByHandle h rest

/-- `Queue.moveToDeadLetterQueueLocked`.  No DLQ: bump `TotalFailed`,
delete the message (first by id) and discard it.  With a DLQ: clone with a
fresh id (`cloneId`), stamp `original_queue` and `failure_reason` metadata,
clear lease fields, delete the original by id, bump `TotalFailed`, and
enqueue the clone into the DLQ (Go does this in a goroutine; the model
records the eventual effect; `dlqFreshId` feeds the inner `Enqueue`). -/
def Queue.moveToDeadLetterQueueLocked (q : Queue) (msg : Message)
    (cloneId dlqFreshId : String) (now : Nat) : Queue × Except BrokerError Unit :=
  match q.deadLetterQueue with
  | none =>
    let q := q.setStats { q.stats with TotalFailed := q.stats.TotalFailed + 1 }
    match removeFirstBy (fun m => m.ID == msg.ID) q.messages with
    | some ms =>
      ((q.setMessages ms).setStats { q.stats with CurrentSize := Int.ofNat ms.length }, .ok ())
    | none => (q, .ok ())
  | some dlq =>
    let dlqMsg := msg.Clone cloneId
    let dlqMsg := dlqMsg.SetMetadata "original_queue" q.name
    let dlqMsg := dlqMsg.SetMetadata "failure_reason" "max_retries_exceeded"
    let dlqMsg := { dlqMsg with ReceiptHandle := "", VisibleAt := 0 }
    let q2 :=
      match removeFirstBy (fun m => m.ID == msg.ID) q.messages with
      | some ms =>
        (q.setMessages ms).setStats { q.stats with CurrentSize := Int.ofNat ms.length }
      | none => q
    let q3 := q2.setStats { q2.stats with TotalFailed := q2.stats.TotalFailed + 1 }
    let dlq2 := (dlq.Enqueue dlqFreshId now dlqMsg).1
    (q3.setDLQ (some dlq2), .ok ())

/-- `Queue.Nack`: locates the message by receipt handle; at or above the
retry budget it is moved to the dead-letter queue, below it the lease is
cleared in place; unknown handles yield `ErrInvalidReceiptHandle`. -/
def Queue.Nack (q : Queue) (receiptHandle : String) (cloneId dlqFreshId : String) (now : Nat) :
    Queue × Except BrokerError Unit :=
  match q.messages.find? (fun m => m.ReceiptHandle == receiptHandle) with
  | none => (q, .error .invalidReceiptHandle)
  | some msg =>
    if q.maxRetries ≤ msg.RetryCount then
      q.moveToDeadLetterQueueLocked msg cloneId dlqFreshId now
    else
      (q.setMessages (clearFirstByHandle receiptHandle q.messages), .ok ())

/-- `Queue.Stats`: snapshot with `CurrentSize` refreshed first. -/
def Queue.Stats (q : Queue) : Queue × QueueStats :=
  let s := { q.stats with CurrentSize := Int.ofNat q.messages.length }
  (q.setStats s, s)

/-- `context.Context` reduced to what the broker code could observe of it:
an optional absolute deadline. -/
structure Context where
  deadline : Option Nat

/-- Whether the context's deadline has passed at instant `now`
(`ctx.Done()` would be closed / `ctx.Err()` non-nil). -/
def Context.deadlineExceeded (c : Context) (now : Nat) : Bool :=
  match c.deadline with
  | none => false
  | some d => decide (d ≤ now)

/-- The `Topic` struct from topic.go. -/
structure Topic where
  name : String
  subscribers : List Queue

/-- `Topic.addSubscriber`: append to the subscriber list. -/
def Topic.addSubscriber (t : Topic) (queue : Queue) : Topic :=
  { t with subscribers := t.subscribers ++ [queue] }

/-- The fan-out loop inside `Topic.Publish`: per subscriber, clone the
message, stamp `source_topic` and a fresh `delivery_id`, and enqueue the
clone; the enqueue error is only logged, never propagated.  Each iteration
draws up to three uuids (`gen k` clone id, `gen (k+1)` delivery id,
`gen (k+2)` offered to `Enqueue`), so the counter advances by 3. -/
def publishFanOut (topicName : String) (gen : Nat → String) (now : Nat) (msg : Message) :
    List Queue → Nat → List Queue × Nat
  | [], k => ([], k)
  | queue :: rest, k =>
    let clone := msg.Clone (gen k)
    let clone := clone.SetMetadata "source_topic" topicName
    let clone := clone.SetMetadata "delivery_id" (gen (k + 1))
    let queue2 := (queue.Enqueue (gen (k + 2)) now clone).1
    let r := publishFanOut topicName gen now msg rest (k + 3)
    (queue2 :: r.1, r.2)

/-- `Topic.Publish`: defaults a zero timestamp, fans out to the snapshot of
subscribers, and reports nil error to the caller unconditionally.  The
`ctx` parameter is carried exactly as in the source: passed in, never
consulted. -/
def Topic.Publish (t : Topic) (ctx : Context) (gen : Nat → String) (k now : Nat) (msg : Message) :
    Topic × Nat × Except BrokerError Unit :=
  let msg2 := if msg.Timestamp = 0 then { msg with Timestamp := now } else msg
  let r := publishFanOut t.name gen now msg2 t.subscribers k
  ({ t with subscribers := r.1 }, r.2, .ok ())

/-- The `BrokerConfig` struct from broker.go. -/
structure BrokerConfig where
  DefaultVisibilityTimeout : Nat
  DefaultMaxRetries : Int
  EnableLogging : Bool

/-- `DefaultBrokerConfig`: 30s visibility timeout (in ms), 3 retries. -/
def DefaultBrokerConfig : BrokerConfig :=
  { DefaultVisibilityTimeout := 30000, DefaultMaxRetries := 3, EnableLogging := true }

/-- The `Broker` struct: the two registries are association lists where
the most recent insertion shadows older entries, modelling the Go maps. -/
structure Broker where
  topics : List (String × Topic)
  queues : List (String × Queue)
  config : BrokerConfig

/-- `NewBroker`. -/
def NewBroker (config : BrokerConfig) : Broker :=
  { topics := [], queues := [], config := config }

/-- `Broker.CreateTopic`: returns the existing topic when the name is
registered, otherwise registers and returns a fresh empty topic. -/
def Broker.CreateTopic (b : Broker) (name : String) : Broker × Topic :=
  match b.topics.lookup name with
  | some existing => (b, existing)
  | none =>
    let topic : Topic := { name := name, subscribers := [] }
    ({ b with topics := (name, topic) :: b.topics }, topic)

/-- `QueueOption`: construction-time configuration function. -/
def QueueOption := Queue → Queue

/-- `WithVisibilityTimeout`. -/
def WithVisibilityTimeout (d : Nat) : QueueOption := fun q => q.setVisibilityTimeout d

/-- `WithMaxRetries`. -/
def WithMaxRetries (n : Int) : QueueOption := fun q => q.setMaxRetries n

/-- `WithDLQ`. -/
def WithDLQ (dlq : Queue) : QueueOption := fun q => q.setDLQ (some dlq)

/-- `Broker.CreateQueue`: returns the existing queue when the name is
registered (the options are then never applied), otherwise builds a queue
from the broker defaults, applies the options in order, and registers it. -/
def Broker.CreateQueue (b : Broker) (name : String) (opts : List QueueOption) : Broker × Queue :=
  match b.queues.lookup name with
  | some existing => (b, existing)
  | none =>
    let queue : Queue := .mk name [] b.config.DefaultVisibilityTimeout b.config.DefaultMaxRetries
      none { TotalReceived := 0, TotalProcessed := 0, TotalFailed := 0, CurrentSize := 0 }
    let queue := opts.foldl (fun q opt => opt q) queue
    ({ b with queues := (name, queue) :: b.queues }, queue)

/-- `Broker.Subscribe`: wires a registered queue into a registered topic. -/
def Broker.Subscribe (b : Broker) (topicName queueName : String) : Broker × Except BrokerError Unit :=
  match b.topics.lookup topicName with
  | none => (b, .error .topicNotFound)
  | some topic =>
    match b.queues.lookup queueName with
    | none => (b, .error .queueNotFound)
    | some queue =>
      ({ b with topics := (topicName, topic.addSubscriber queue) :: b.topics }, .ok ())

/-- `Broker.Publish`: `ErrTopicNotFound` for an unregistered name,
otherwise delegates to `Topic.Publish` (storing back the updated topic). -/
def Broker.Publish (b : Broker) (ctx : Context) (topicName : String) (gen : Nat → String)
    (k now : Nat) (msg : Message) : Broker × Nat × Except BrokerError Unit :=
  match b.topics.lookup topicName with
  | none => (b, k, .error .topicNotFound)
  | some topic =>
    let r := topic.Publish ctx gen k now msg
    ({ b with topics := (topicName, r.1) :: b.topics }, r.2.1, r.2.2)

/-- The `InMemoryIdempotencyStore` struct from worker.go: message id ↦
instant it was marked processed (association list, newest entry first,
modelling map overwrite), plus the TTL. -/
structure InMemoryIdempotencyStore where
  processed : List (String × Nat)
  ttl : Nat

/-- `NewInMemoryIdempotencyStore`. -/
def NewInMemoryIdempotencyStore (ttl : Nat) : InMemoryIdempotencyStore :=
  { processed := [], ttl := ttl }

/-- `InMemoryIdempotencyStore.IsProcessed`: false when the id is absent or
its timestamp is older than the TTL (`time.Since(timestamp) > ttl`);
`now - t` is the elapsed time since the mark. -/
def InMemoryIdempotencyStore.IsProcessed (s : InMemoryIdempotencyStore) (now : Nat)
    (messageID : String) : Bool :=
  match s.processed.lookup messageID with
  | none => false
  | some t => !decide (s.ttl < now - t)

/-- `InMemoryIdempotencyStore.MarkProcessed`: records `now` against the id
(overwriting any prior entry) and returns nil error. -/
def InMemoryIdempotencyStore.MarkProcessed (s : InMemoryIdempotencyStore) (now : Nat)
    (messageID : String) : InMemoryIdempotencyStore × Except String Unit :=
  ({ s with processed := (messageID, now) :: s.processed }, .ok ())

/-- The handler closure built inside `IdempotentWorker`: skip (success)
when the store says the id is processed; otherwise run the inner handler
and, only on its success, mark the id, returning `MarkProcessed`'s result.
The inner handler is a pure function `Message → Except String Unit`
(handler errors are opaque strings to the broker). -/
def idempotentWrappedHandler (store : InMemoryIdempotencyStore)
    (handler : Message → Except String Unit) (now : Nat) (msg : Message) :
    InMemoryIdempotencyStore × Except String Unit :=
  if store.IsProcessed now msg.ID then (store, .ok ())
  else
    match handler msg with
    | .error e => (store, .error e)
    | .ok _ =>
      let r := store.MarkProcessed now msg.ID
      (r.1, r.2)

/-! ### General helper lemmas about the scan loops -/

theorem find?_append_first {α : Type} (p : α → Bool) (pre post : List α) (m : α)
    (hpre : ∀ x ∈ pre, p x = false) (hm : p m = true) :
    (pre ++ m :: post).find? p = some m := by
  induction pre with
  | nil => simp [List.find?_cons, hm]
  | cons a pre ih =>
    have ha : p a = false := hpre a (by simp)
    simp only [List.cons_append, List.find?_cons, ha]
    exact ih fun x hx => hpre x (by simp [hx])

theorem find?_eq_none_of_all {α : Type} (p : α → Bool) (ms : List α)
    (h : ∀ x ∈ ms, p x = false) : ms.find? p = none := by
  rw [List.find?_eq_none]
  intro x hx
  simp [h x hx]

theorem removeFirstBy_eq_none_iff (p : Message → Bool) (ms : List Message) :
    removeFirstBy p ms = none ↔ ∀ x ∈ ms, p x = false := by
  induction ms with
  | nil => simp [removeFirstBy]
  | cons m rest ih =>
    by_cases hm : p m
    · simp [removeFirstBy, hm]
    · simp only [removeFirstBy, if_neg hm]
      constructor
      · intro h x hx
        rcases List.mem_cons.1 hx with rfl | hx
        · exact Bool.eq_false_iff.2 hm
        · rcases h2 : removeFirstBy p rest with _ | ms2
          · exact ih.1 h2 x hx
          · rw [h2] at h; simp at h
      · intro h
        have : removeFirstBy p rest = none := ih.2 fun x hx => h x (by simp [hx])
        simp [this]

theorem removeFirstBy_split (p : Message → Bool) (pre post : List Message) (m : Message)
    (hpre : ∀ x ∈ pre, p x = false) (hm : p m = true) :
    removeFirstBy p (pre ++ m :: post) = some (pre ++ post) := by
  induction pre with
  | nil => simp [removeFirstBy, hm]
  | cons a pre ih =>
    have ha : p a = false := hpre a (by simp)
    have ih2 := ih fun x hx => hpre x (by simp [hx])
    simp [removeFirstBy, ha, ih2]

theorem clearFirstByHandle_split (h : String) (pre post : List Message) (m : Message)
    (hpre : ∀ x ∈ pre, x.ReceiptHandle ≠ h) (hm : m.ReceiptHandle = h) :
    clearFirstByHandle h (pre ++ m :: post) =
      pre ++ { m with VisibleAt := 0, ReceiptHandle := "" } :: post := by
  induction pre with
  | nil => simp [clearFirstByHandle, hm]
  | cons a pre ih =>
    have ha : (a.ReceiptHandle == h) = false := by
      simpa using hpre a (by simp)
    have ih2 := ih fun x hx => hpre x (by simp [hx])
    simp [clearFirstByHandle, ha, ih2]

theorem receiveScan_eq_none_of_all (vt now : Nat) (handle : String) (ms : List Message)
    (h : ∀ x ∈ ms, x.IsVisible now = false) : receiveScan vt now handle ms = none := by
  induction ms with
  | nil => rfl
  | cons m rest ih =>
    have hm : m.IsVisible now = false := h m (by simp)
    have ih2 := ih fun x hx => h x (by simp [hx])
    simp [receiveScan, hm, ih2]

theorem receiveScan_split (vt now : Nat) (handle : String) (pre post : List Message) (m : Message)
    (hpre : ∀ x ∈ pre, x.IsVisible now = false) (hm : m.IsVisible now = true) :
    receiveScan vt now handle (pre ++ m :: post) =
      some (pre ++ leaseUpdate m vt now handle :: post, leaseUpdate m vt now handle) := by
  induction pre with
  | nil => simp [receiveScan, hm]
  | cons a pre ih =>
    have ha : a.IsVisible now = false := hpre a (by simp)
    have ih2 := ih fun x hx => hpre x (by simp [hx])
    simp [receiveScan, ha, ih2]

/-- `Enqueue` appends exactly one message, and apart from the possible
id/timestamp defaulting the appended message is the argument; when the
argument already carries a non-empty id, every field except `Timestamp`
survives unchanged. -/
theorem enqueue_appends (q : Queue) (fid : String) (now : Nat) (msg : Message)
    (hid : msg.ID ≠ "") :
    ∃ c, (q.Enqueue fid now msg).1.messages = q.messages ++ [c] ∧
      c.ID = msg.ID ∧ c.MType = msg.MType ∧ c.Payload = msg.Payload ∧
      c.Metadata = msg.Metadata ∧ c.RetryCount = msg.RetryCount ∧
      c.VisibleAt = msg.VisibleAt ∧ c.ReceiptHandle = msg.ReceiptHandle := by
  refine ⟨if msg.Timestamp = 0 then { msg with Timestamp := now } else msg, ?_, ?_⟩
  · simp only [Queue.Enqueue, if_neg hid]
    by_cases ht : msg.Timestamp = 0 <;> simp [ht]
  · by_cases ht : msg.Timestamp = 0 <;> simp [ht]

/-- `Enqueue` grows the sequence by exactly one, unconditionally. -/
theorem enqueue_length (q : Queue) (fid : String) (now : Nat) (msg : Message) :
    (q.Enqueue fid now msg).1.messages.length = q.messages.length + 1 := by
  simp [Queue.Enqueue]

/-- `Acknowledge` on a queue whose first handle match is `m`: `m` is
removed and `total_processed` bumped. -/
theorem acknowledge_found (q : Queue) (h : String) (pre post : List Message) (m : Message)
    (hsplit : q.messages = pre ++ m :: post)
    (hpre : ∀ x ∈ pre, x.ReceiptHandle ≠ h) (hm : m.ReceiptHandle = h) :
    q.Acknowledge h =
      ((q.setMessages (pre ++ post)).setStats
        { q.stats with
            TotalProcessed := q.stats.TotalProcessed + 1
            CurrentSize := Int.ofNat (pre ++ post).length }, .ok ()) := by
  have hrem : removeFirstBy (fun x => x.ReceiptHandle == h) q.messages = some (pre ++ post) := by
    rw [hsplit]
    exact removeFirstBy_split _ _ _ _ (fun x hx => by simp [hpre x hx]) (by simp [hm])
  simp [Queue.Acknowledge, hrem]

/-- `Acknowledge` fails, with `ErrInvalidReceiptHandle`, exactly when no
message currently holds the handle. -/
theorem acknowledge_error_iff (q : Queue) (h : String) :
    (q.Acknowledge h).2 = .error .invalidReceiptHandle ↔
      ∀ x ∈ q.messages, x.ReceiptHandle ≠ h := by
  constructor
  · intro herr x hx
    rcases hrem : removeFirstBy (fun x => x.ReceiptHandle == h) q.messages with _ | ms
    · have := (removeFirstBy_eq_none_iff _ _).1 hrem x hx
      simpa using this
    · simp [Queue.Acknowledge, hrem] at herr
  · intro hall
    have hrem : removeFirstBy (fun x => x.ReceiptHandle == h) q.messages = none :=
      (removeFirstBy_eq_none_iff _ _).2 fun x hx => by simp [hall x hx]
    simp [Queue.Acknowledge, hrem]

/-- The dead-letter clone as `moveToDeadLetterQueueLocked` builds it:
`Clone` (fresh id, retry count 0, lease fields zero) followed by the
`original_queue` and `failure_reason` metadata stamps (and the redundant
re-clearing of the lease fields). -/
def nackDLQMessage (q : Queue) (m : Message) (cid : String) : Message :=
  { ID := cid
    MType := m.MType
    Payload := m.Payload
    Metadata := ("failure_reason", "max_retries_exceeded") ::
      ("original_queue", q.name) :: m.Metadata
    Timestamp := m.Timestamp
    RetryCount := 0
    VisibleAt := 0
    ReceiptHandle := "" }

/-- `Nack` below the retry budget: the matched message stays in place with
`VisibleAt` and `ReceiptHandle` cleared, and the call succeeds. -/
theorem nack_under_budget_eq (q : Queue) (h cid fid : String) (now : Nat)
    (pre post : List Message) (m : Message)
    (hsplit : q.messages = pre ++ m :: post)
    (hpre : ∀ x ∈ pre, x.ReceiptHandle ≠ h) (hm : m.ReceiptHandle = h)
    (hretry : m.RetryCount < q.maxRetries) :
    q.Nack h cid fid now =
      (q.setMessages (pre ++ { m with VisibleAt := 0, ReceiptHandle := "" } :: post), .ok ()) := by
  have hfind : q.messages.find? (fun x => x.ReceiptHandle == h) = some m := by
    rw [hsplit]
    exact find?_append_first _ _ _ _ (fun x hx => by simp [hpre x hx]) (by simp [hm])
  have hif : ¬ q.maxRetries ≤ m.RetryCount := not_le.2 hretry
  have hclear : clearFirstByHandle h q.messages =
      pre ++ { m with VisibleAt := 0, ReceiptHandle := "" } :: post := by
    rw [hsplit]
    exact clearFirstByHandle_split h pre post m hpre hm
  simp [Queue.Nack, hfind, hif, hclear]

/-- `Nack` at or above the retry budget with a configured DLQ: the message
is deleted, `total_failed` bumped, and the dead-letter clone is enqueued
into the stored DLQ. -/
theorem nack_dlq_eq (q : Queue) (h cid fid : String) (now : Nat)
    (pre post : List Message) (m : Message) (d : Queue)
    (hsplit : q.messages = pre ++ m :: post)
    (hpre : ∀ x ∈ pre, x.ReceiptHandle ≠ h) (hm : m.ReceiptHandle = h)
    (hretry : q.maxRetries ≤ m.RetryCount)
    (hdlq : q.deadLetterQueue = some d)
    (hid : ∀ x ∈ pre, x.ID ≠ m.ID) :
    q.Nack h cid fid now =
      (((q.setMessages (pre ++ post)).setStats
          { q.stats with
              TotalFailed := q.stats.TotalFailed + 1
              CurrentSize := Int.ofNat (pre ++ post).length }).setDLQ
        (some (d.Enqueue fid now (nackDLQMessage q m cid)).1), .ok ()) := by
  have hfind : q.messages.find? (fun x => x.ReceiptHandle == h) = some m := by
    rw [hsplit]
    exact find?_append_first _ _ _ _ (fun x hx => by simp [hpre x hx]) (by simp [hm])
  have hrem : removeFirstBy (fun x => x.ID == m.ID) q.messages = some (pre ++ post) := by
    rw [hsplit]
    exact removeFirstBy_split _ _ _ _ (fun x hx => by simp [hid x hx]) (by simp)
  simp [Queue.Nack, hfind, hretry, Queue.moveToDeadLetterQueueLocked, hdlq, hrem,
    Message.Clone, Message.SetMetadata, nackDLQMessage]

/-- `Nack` at or above the retry budget with no DLQ: the message is
deleted and discarded, `total_failed` bumped. -/
theorem nack_no_dlq_eq (q : Queue) (h cid fid : String) (now : Nat)
    (pre post : List Message) (m : Message)
    (hsplit : q.messages = pre ++ m :: post)
    (hpre : ∀ x ∈ pre, x.ReceiptHandle ≠ h) (hm : m.ReceiptHandle = h)
    (hretry : q.maxRetries ≤ m.RetryCount)
    (hdlq : q.deadLetterQueue = none)
    (hid : ∀ x ∈ pre, x.ID ≠ m.ID) :
    q.Nack h cid fid now =
      ((q.setMessages (pre ++ post)).setStats
        { q.stats with
            TotalFailed := q.stats.TotalFailed + 1
            CurrentSize := Int.ofNat (pre ++ post).length }, .ok ()) := by
  have hfind : q.messages.find? (fun x => x.ReceiptHandle == h) = some m := by
    rw [hsplit]
    exact find?_append_first _ _ _ _ (fun x hx => by simp [hpre x hx]) (by simp [hm])
  have hrem : removeFirstBy (fun x => x.ID == m.ID) q.messages = some (pre ++ post) := by
    rw [hsplit]
    exact removeFirstBy_split _ _ _ _ (fun x hx => by simp [hid x hx]) (by simp)
  simp [Queue.Nack, hfind, hretry, Queue.moveToDeadLetterQueueLocked, hdlq, hrem]

/-! ### Demo values used by the closed witness theorems -/

/-- A currently leased demo message (invisible until instant 200). -/
def demoLeased : Message :=
  { ID := "m0", MType := "evt", Payload := [1], Metadata := [], Timestamp := 5,
    RetryCount := 1, VisibleAt := 200, ReceiptHandle := "rh0" }

/-- An immediately visible demo message. -/
def demoVisible : Message :=
  { ID := "m1", MType := "evt", Payload := [2], Metadata := [], Timestamp := 6,
    RetryCount := 0, VisibleAt := 0, ReceiptHandle := "" }

/-- Demo stats block. -/
def demoStats : QueueStats :=
  { TotalReceived := 2, TotalProcessed := 0, TotalFailed := 0, CurrentSize := 2 }

/-- Demo queue: a leased head followed by a visible entry. -/
def demoQueue : Queue := .mk "q" [demoLeased, demoVisible] 30 3 none demoStats

/-- An empty demo dead-letter queue. -/
def demoDLQ : Queue :=
  .mk "dlq" [] 30 3 none { TotalReceived := 0, TotalProcessed := 0, TotalFailed := 0, CurrentSize := 0 }

/-- Demo queue with `max_retries = 1`, a DLQ, and one leased message whose
retry budget is exhausted. -/
def demoQueueDLQ : Queue := .mk "qd" [demoLeased] 30 1 (some demoDLQ) demoStats

/-- Demo queue with `max_retries = 1`, no DLQ, and one leased message whose
retry budget is exhausted. -/
def demoQueueNoDLQ : Queue := .mk "qn" [demoLeased] 30 1 none demoStats

/-! ### Claim theorems -/

/-- Claim C1: `Receive` leases the first message in insertion order that
satisfies `IsVisible` (an earlier invisible message does not block a later
visible one), setting `visible_at = now + visibility_timeout`, assigning
the fresh receipt handle and bumping `retry_count` (the `leaseUpdate`
fields); when no message is visible it returns no message and no error,
leaving the queue unchanged. -/
theorem receive_first_visible_spec :
    (∀ (q : Queue) (now : Nat) (h : String) (pre post : List Message) (m : Message),
      q.messages = pre ++ m :: post →
      (∀ x ∈ pre, x.IsVisible now = false) →
      m.IsVisible now = true →
      q.Receive now h =
        (q.setMessages (pre ++ leaseUpdate m q.visibilityTimeout now h :: post),
         some (leaseUpdate m q.visibilityTimeout now h), none))
    ∧ (∀ (q : Queue) (now : Nat) (h : String),
      (∀ x ∈ q.messages, x.IsVisible now = false) →
      q.Receive now h = (q, none, none)) := by
  constructor
  · intro q now h pre post m hsplit hpre hm
    simp [Queue.Receive, hsplit, receiveScan_split _ _ _ _ _ _ hpre hm]
  · intro q now h hall
    simp [Queue.Receive, receiveScan_eq_none_of_all _ _ _ _ hall]

/-- Witness for C1 at concrete inputs: in `demoQueue` the invisible head is
skipped and the second message is leased; a queue with only the invisible
message yields no message and no error. -/
theorem receive_first_visible_spec_witness :
    (demoQueue.Receive 100 "rh1" =
      (demoQueue.setMessages [demoLeased, leaseUpdate demoVisible 30 100 "rh1"],
       some (leaseUpdate demoVisible 30 100 "rh1"), none))
    ∧ ((Queue.mk "q2" [demoLeased] 30 3 none demoStats).Receive 100 "x" =
      (Queue.mk "q2" [demoLeased] 30 3 none demoStats, none, none)) :=
  ⟨receive_first_visible_spec.1 demoQueue 100 "rh1" [demoLeased] [] demoVisible rfl
      (by decide) (by decide),
   receive_first_visible_spec.2 (Queue.mk "q2" [demoLeased] 30 3 none demoStats) 100 "x"
      (by decide)⟩

/-- Claim C3: `Acknowledge h` removes the message whose receipt handle
matches `h` exactly and bumps `total_processed`; it fails with
`ErrInvalidReceiptHandle` if and only if no message in the queue currently
holds `h`; in particular, when exactly one message holds `h`, a first
`Acknowledge` succeeds and a second one with the same handle fails with
`ErrInvalidReceiptHandle`. -/
theorem acknowledge_spec :
    (∀ (q : Queue) (h : String) (pre post : List Message) (m : Message),
      q.messages = pre ++ m :: post →
      (∀ x ∈ pre, x.ReceiptHandle ≠ h) →
      m.ReceiptHandle = h →
      q.Acknowledge h =
        ((q.setMessages (pre ++ post)).setStats
          { q.stats with
              TotalProcessed := q.stats.TotalProcessed + 1
              CurrentSize := Int.ofNat (pre ++ post).length }, .ok ()))
    ∧ (∀ (q : Queue) (h : String),
      (q.Acknowledge h).2 = .error .invalidReceiptHandle ↔
        ∀ x ∈ q.messages, x.ReceiptHandle ≠ h)
    ∧ (∀ (q : Queue) (h : String) (pre post : List Message) (m : Message),
      q.messages = pre ++ m :: post →
      (∀ x ∈ pre, x.ReceiptHandle ≠ h) →
      m.ReceiptHandle = h →
      (∀ x ∈ post, x.ReceiptHandle ≠ h) →
      (q.Acknowledge h).2 = .ok () ∧
      ((q.Acknowledge h).1.Acknowledge h).2 = .error .invalidReceiptHandle) := by
  refine ⟨acknowledge_found, acknowledge_error_iff, ?_⟩
  intro q h pre post m hsplit hpre hm hpost
  have hfound := acknowledge_found q h pre post m hsplit hpre hm
  constructor
  · rw [hfound]
  · have hmsgs : (q.Acknowledge h).1.messages = pre ++ post := by
      rw [hfound]; simp
    refine (acknowledge_error_iff _ _).2 ?_
    rw [hmsgs]
    intro x hx
    rcases List.mem_append.1 hx with hx | hx
    · exact hpre x hx
    · exact hpost x hx

/-- Witness for C3 at concrete inputs: acknowledging `demoLeased`'s handle
in `demoQueue` removes it once and fails the second time. -/
theorem acknowledge_spec_witness :
    (demoQueue.Acknowledge "rh0" =
      ((demoQueue.setMessages [demoVisible]).setStats
        { demoStats with TotalProcessed := 1, CurrentSize := 1 }, .ok ()))
    ∧ ((demoQueue.Acknowledge "nope").2 = .error .invalidReceiptHandle ↔
        ∀ x ∈ demoQueue.messages, x.ReceiptHandle ≠ "nope")
    ∧ ((demoQueue.Acknowledge "rh0").2 = .ok () ∧
      ((demoQueue.Acknowledge "rh0").1.Acknowledge "rh0").2 = .error .invalidReceiptHandle) :=
  ⟨acknowledge_spec.1 demoQueue "rh0" [] [demoVisible] demoLeased rfl (by decide) (by decide),
   acknowledge_spec.2.1 demoQueue "nope",
   acknowledge_spec.2.2 demoQueue "rh0" [] [demoVisible] demoLeased rfl (by decide) (by decide)
     (by decide)⟩

/-- Claim C2: `Nack h` on the message holding handle `h`: below the retry
budget it clears `visible_at` and `receipt_handle` in place (so the message
stays in the queue and is immediately visible at any instant) and
succeeds; at or above the budget it removes the message, bumps
`total_failed`, succeeds, and — when a DLQ is configured — deposits a
clone with fresh id `cid`, retry count 0 and
`failure_reason = max_retries_exceeded` metadata into the DLQ, while with
no DLQ the message is simply discarded; an unknown handle fails with
`ErrInvalidReceiptHandle`. -/
theorem nack_retry_dlq_spec :
    (∀ (q : Queue) (h cid fid : String) (now : Nat) (pre post : List Message) (m : Message),
      q.messages = pre ++ m :: post →
      (∀ x ∈ pre, x.ReceiptHandle ≠ h) →
      m.ReceiptHandle = h →
      m.RetryCount < q.maxRetries →
      q.Nack h cid fid now =
        (q.setMessages (pre ++ { m with VisibleAt := 0, ReceiptHandle := "" } :: post), .ok ()) ∧
      (∀ now2, Message.IsVisible { m with VisibleAt := 0, ReceiptHandle := "" } now2 = true))
    ∧ (∀ (q : Queue) (h cid fid : String) (now : Nat) (pre post : List Message) (m : Message)
        (d : Queue),
      q.messages = pre ++ m :: post →
      (∀ x ∈ pre, x.ReceiptHandle ≠ h) →
      m.ReceiptHandle = h →
      q.maxRetries ≤ m.RetryCount →
      q.deadLetterQueue = some d →
      (∀ x ∈ pre, x.ID ≠ m.ID) →
      cid ≠ "" →
      ∃ q2, q.Nack h cid fid now = (q2, .ok ()) ∧
        q2.messages = pre ++ post ∧
        q2.stats.TotalFailed = q.stats.TotalFailed + 1 ∧
        ∃ d2 dm, q2.deadLetterQueue = some d2 ∧
          d2.messages = d.messages ++ [dm] ∧
          dm.ID = cid ∧ dm.RetryCount = 0 ∧ dm.Payload = m.Payload ∧
          dm.GetMetadata "failure_reason" = "max_retries_exceeded" ∧
          dm.GetMetadata "original_queue" = q.name ∧
          dm.VisibleAt = 0 ∧ dm.ReceiptHandle = "")
    ∧ (∀ (q : Queue) (h cid fid : String) (now : Nat) (pre post : List Message) (m : Message),
      q.messages = pre ++ m :: post →
      (∀ x ∈ pre, x.ReceiptHandle ≠ h) →
      m.ReceiptHandle = h →
      q.maxRetries ≤ m.RetryCount →
      q.deadLetterQueue = none →
      (∀ x ∈ pre, x.ID ≠ m.ID) →
      ∃ q2, q.Nack h cid fid now = (q2, .ok ()) ∧
        q2.messages = pre ++ post ∧
        q2.stats.TotalFailed = q.stats.TotalFailed + 1 ∧
        q2.deadLetterQueue = none)
    ∧ (∀ (q : Queue) (h cid fid : String) (now : Nat),
      (∀ x ∈ q.messages, x.ReceiptHandle ≠ h) →
      q.Nack h cid fid now = (q, .error .invalidReceiptHandle)) := by
  refine ⟨?_, ?_, ?_, ?_⟩
  · intro q h cid fid now pre post m hsplit hpre hm hretry
    exact ⟨nack_under_budget_eq q h cid fid now pre post m hsplit hpre hm hretry,
      fun now2 => by simp [Message.IsVisible]⟩
  · intro q h cid fid now pre post m d hsplit hpre hm hretry hdlq hid hcid
    have heq := nack_dlq_eq q h cid fid now pre post m d hsplit hpre hm hretry hdlq hid
    obtain ⟨dm, hdmApp, hdmID, hdmT, hdmP, hdmM, hdmR, hdmV, hdmH⟩ :=
      enqueue_appends d fid now (nackDLQMessage q m cid) (by simpa [nackDLQMessage] using hcid)
    refine ⟨_, heq, by simp, by simp, ?_⟩
    refine ⟨(d.Enqueue fid now (nackDLQMessage q m cid)).1, dm, by simp, hdmApp, ?_, ?_, ?_, ?_, ?_, ?_, ?_⟩
    · simpa [nackDLQMessage] using hdmID
    · simpa [nackDLQMessage] using hdmR
    · simpa [nackDLQMessage] using hdmP
    · simp [Message.GetMetadata, hdmM, nackDLQMessage, List.lookup]
    · simp [Message.GetMetadata, hdmM, nackDLQMessage, List.lookup]
    · simpa [nackDLQMessage] using hdmV
    · simpa [nackDLQMessage] using hdmH
  · intro q h cid fid now pre post m hsplit hpre hm hretry hdlq hid
    have heq := nack_no_dlq_eq q h cid fid now pre post m hsplit hpre hm hretry hdlq hid
    exact ⟨_, heq, by simp, by simp, by simp [hdlq]⟩
  · intro q h cid fid now hall
    have hfind : q.messages.find? (fun x => x.ReceiptHandle == h) = none :=
      find?_eq_none_of_all _ _ fun x hx => by simp [hall x hx]
    simp [Queue.Nack, hfind]

/-- Witness for C2 at concrete inputs: the under-budget clear on
`demoQueue`, the DLQ deposit on `demoQueueDLQ`, the discard on
`demoQueueNoDLQ`, and the invalid-handle failure. -/
theorem nack_retry_dlq_spec_witness :
    (demoQueue.Nack "rh0" "c1" "f1" 100 =
      (demoQueue.setMessages
        [{ demoLeased with VisibleAt := 0, ReceiptHandle := "" }, demoVisible], .ok ()))
    ∧ (∃ q2, demoQueueDLQ.Nack "rh0" "c1" "f1" 100 = (q2, .ok ()) ∧
        q2.messages = [] ∧
        q2.stats.TotalFailed = demoQueueDLQ.stats.TotalFailed + 1 ∧
        ∃ d2 dm, q2.deadLetterQueue = some d2 ∧
          d2.messages = demoDLQ.messages ++ [dm] ∧
          dm.ID = "c1" ∧ dm.RetryCount = 0 ∧ dm.Payload = demoLeased.Payload ∧
          dm.GetMetadata "failure_reason" = "max_retries_exceeded" ∧
          dm.GetMetadata "original_queue" = demoQueueDLQ.name ∧
          dm.VisibleAt = 0 ∧ dm.ReceiptHandle = "")
    ∧ (∃ q2, demoQueueNoDLQ.Nack "rh0" "c1" "f1" 100 = (q2, .ok ()) ∧
        q2.messages = [] ∧
        q2.stats.TotalFailed = demoQueueNoDLQ.stats.TotalFailed + 1 ∧
        q2.deadLetterQueue = none)
    ∧ (demoQueue.Nack "zz" "c1" "f1" 100 = (demoQueue, .error .invalidReceiptHandle)) :=
  ⟨(nack_retry_dlq_spec.1 demoQueue "rh0" "c1" "f1" 100 [] [demoVisible] demoLeased rfl
      (by decide) (by decide) (by decide)).1,
   nack_retry_dlq_spec.2.1 demoQueueDLQ "rh0" "c1" "f1" 100 [] [] demoLeased demoDLQ rfl
      (by decide) (by decide) (by decide) rfl (by decide) (by decide),
   nack_retry_dlq_spec.2.2.1 demoQueueNoDLQ "rh0" "c1" "f1" 100 [] [] demoLeased rfl
      (by decide) (by decide) (by decide) rfl (by decide),
   nack_retry_dlq_spec.2.2.2 demoQueue "zz" "c1" "f1" 100 (by decide)⟩

/-- The fan-out loop preserves the number of subscriber queues. -/
theorem publishFanOut_length (tn : String) (gen : Nat → String) (now : Nat) (msg : Message) :
    ∀ (subs : List Queue) (k : Nat),
      (publishFanOut tn gen now msg subs k).1.length = subs.length := by
  intro subs
  induction subs with
  | nil => intro k; rfl
  | cons q rest ih =>
    intro k
    simp [publishFanOut, ih (k + 3)]

/-- Per-subscriber effect of the fan-out loop: subscriber `i` gains exactly
one appended clone whose id is `gen (k + 3i)`, whose payload is the
published payload, and whose metadata carries the topic name and the fresh
delivery id `gen (k + 3i + 1)`. -/
theorem publishFanOut_get? (tn : String) (gen : Nat → String) (now : Nat) (msg : Message)
    (hne : ∀ n, gen n ≠ "") :
    ∀ (subs : List Queue) (k i : Nat) (q0 : Queue), subs.get? i = some q0 →
      ∃ q1 c, (publishFanOut tn gen now msg subs k).1.get? i = some q1 ∧
        q1.messages = q0.messages ++ [c] ∧
        c.ID = gen (k + 3 * i) ∧ c.Payload = msg.Payload ∧
        c.GetMetadata "source_topic" = tn ∧
        c.GetMetadata "delivery_id" = gen (k + 3 * i + 1) := by
  intro subs
  induction subs with
  | nil => intro k i q0 h0; simp at h0
  | cons q rest ih =>
    intro k i q0 h0
    cases i with
    | zero =>
      have hq : q = q0 := by simpa using h0
      subst hq
      obtain ⟨c, hc, hcID, hcT, hcP, hcM, hcR, hcV, hcH⟩ :=
        enqueue_appends q (gen (k + 2)) now
          (((msg.Clone (gen k)).SetMetadata "source_topic" tn).SetMetadata
            "delivery_id" (gen (k + 1)))
          (by simpa [Message.Clone, Message.SetMetadata] using hne k)
      refine ⟨_, c, by simp [publishFanOut], hc, ?_, ?_, ?_, ?_⟩
      · rw [hcID]; simp [Message.Clone, Message.SetMetadata]
      · rw [hcP]; simp [Message.Clone, Message.SetMetadata]
      · simp [Message.GetMetadata, hcM, Message.Clone, Message.SetMetadata, List.lookup]
      · simp [Message.GetMetadata, hcM, Message.Clone, Message.SetMetadata, List.lookup]
    | succ i =>
      have h0' : rest.get? i = some q0 := by simpa using h0
      obtain ⟨q1, c, hq1, hmsgs, hID, hP, hS, hD⟩ := ih (k + 3) i q0 h0'
      refine ⟨q1, c, by simpa [publishFanOut] using hq1, hmsgs, ?_, hP, hS, ?_⟩
      · rw [hID]; congr 1; omega
      · rw [hD]; congr 1; omega

/-- Claim C4: publishing to a topic with N subscribers enqueues exactly one
independent clone per subscriber queue — same payload bytes, metadata
`source_topic` set to the topic name and a fresh `delivery_id`, and
pairwise distinct fresh ids (the clone of subscriber `i` gets id
`gen (k + 3i)`) — and `Topic.Publish` reports success to its caller
unconditionally (per-subscriber enqueue results are discarded). -/
theorem publish_fanout_spec :
    ∀ (t : Topic) (ctx : Context) (gen : Nat → String) (k now : Nat) (msg : Message),
      Function.Injective gen →
      (∀ n, gen n ≠ "") →
      (t.Publish ctx gen k now msg).2.2 = .ok () ∧
      (t.Publish ctx gen k now msg).1.subscribers.length = t.subscribers.length ∧
      (∀ (i : Nat) (q0 : Queue), t.subscribers.get? i = some q0 →
        ∃ q1 c, (t.Publish ctx gen k now msg).1.subscribers.get? i = some q1 ∧
          q1.messages = q0.messages ++ [c] ∧
          c.ID = gen (k + 3 * i) ∧ c.Payload = msg.Payload ∧
          c.GetMetadata "source_topic" = t.name ∧
          c.GetMetadata "delivery_id" = gen (k + 3 * i + 1)) ∧
      (∀ i j : Nat, i ≠ j → gen (k + 3 * i) ≠ gen (k + 3 * j)) := by
  intro t ctx gen k now msg hinj hne
  have hpub : (t.Publish ctx gen k now msg).1.subscribers =
      (publishFanOut t.name gen now
        (if msg.Timestamp = 0 then { msg with Timestamp := now } else msg) t.subscribers k).1 :=
    rfl
  have hpay : (if msg.Timestamp = 0 then { msg with Timestamp := now } else msg).Payload
      = msg.Payload := by
    by_cases ht : msg.Timestamp = 0 <;> simp [ht]
  refine ⟨rfl, ?_, ?_, ?_⟩
  · rw [hpub]; exact publishFanOut_length _ _ _ _ t.subscribers k
  · intro i q0 h0
    obtain ⟨q1, c, hq1, hmsgs, hID, hP, hS, hD⟩ :=
      publishFanOut_get? t.name gen now _ hne t.subscribers k i q0 h0
    exact ⟨q1, c, by rw [hpub]; exact hq1, hmsgs, hID, by rw [hP]; exact hpay, hS, hD⟩
  · intro i j hij hgen
    have := hinj hgen
    omega

/-- Demo message to publish. -/
def demoMsg : Message :=
  { ID := "orig", MType := "evt", Payload := [7, 8], Metadata := [], Timestamp := 9,
    RetryCount := 0, VisibleAt := 0, ReceiptHandle := "" }

/-- Demo topic with two subscriber queues (the same empty queue twice:
duplicate subscription is allowed and receives duplicate deliveries). -/
def demoTopic : Topic := { name := "T", subscribers := [demoDLQ, demoDLQ] }

/-- Fresh-uuid generator used by witnesses: `n ↦` a string of `n+1` copies
of the letter a, injective and never empty. -/
def demoGen (n : Nat) : String := String.mk (List.replicate (n + 1) 'a')

theorem demoGen_injective : Function.Injective demoGen := by
  intro a b h
  have := congrArg (fun s => s.data.length) h
  simpa [demoGen] using this

theorem demoGen_ne_empty (n : Nat) : demoGen n ≠ "" := by
  intro h
  have := congrArg (fun s => s.data.length) h
  simp [demoGen] at this

/-- Witness for C4 at concrete inputs: publishing `demoMsg` on `demoTopic`
succeeds, keeps two subscribers, appends a well-formed clone to subscriber
0, and the two clone ids are distinct. -/
theorem publish_fanout_spec_witness :
    (demoTopic.Publish ⟨none⟩ demoGen 0 50 demoMsg).2.2 = .ok () ∧
    (demoTopic.Publish ⟨none⟩ demoGen 0 50 demoMsg).1.subscribers.length
      = demoTopic.subscribers.length ∧
    (∃ q1 c, (demoTopic.Publish ⟨none⟩ demoGen 0 50 demoMsg).1.subscribers.get? 0 = some q1 ∧
      q1.messages = demoDLQ.messages ++ [c] ∧
      c.ID = demoGen (0 + 3 * 0) ∧ c.Payload = demoMsg.Payload ∧
      c.GetMetadata "source_topic" = demoTopic.name ∧
      c.GetMetadata "delivery_id" = demoGen (0 + 3 * 0 + 1)) ∧
    demoGen (0 + 3 * 0) ≠ demoGen (0 + 3 * 1) := by
  have H := publish_fanout_spec demoTopic ⟨none⟩ demoGen 0 50 demoMsg
    demoGen_injective demoGen_ne_empty
  exact ⟨H.1, H.2.1, H.2.2.1 0 demoDLQ rfl, H.2.2.2 0 1 (by decide)⟩

/-- Claim C5: `CreateTopic` and `CreateQueue` are idempotent by name — a
second call with the same name returns the identical object created by the
first call, leaves the broker unchanged, and any options passed to the
second `CreateQueue` call are ignored, so the existing queue's
`visibility_timeout`, `max_retries` and dead-letter queue are unchanged. -/
theorem create_idempotent_by_name_spec :
    (∀ (b : Broker) (name : String),
      ((b.CreateTopic name).1.CreateTopic name).2 = (b.CreateTopic name).2 ∧
      ((b.CreateTopic name).1.CreateTopic name).1 = (b.CreateTopic name).1)
    ∧ (∀ (b : Broker) (name : String) (opts opts2 : List QueueOption),
      ((b.CreateQueue name opts).1.CreateQueue name opts2).2 = (b.CreateQueue name opts).2 ∧
      ((b.CreateQueue name opts).1.CreateQueue name opts2).1 = (b.CreateQueue name opts).1 ∧
      ((b.CreateQueue name opts).1.CreateQueue name opts2).2.visibilityTimeout
        = (b.CreateQueue name opts).2.visibilityTimeout ∧
      ((b.CreateQueue name opts).1.CreateQueue name opts2).2.maxRetries
        = (b.CreateQueue name opts).2.maxRetries ∧
      ((b.CreateQueue name opts).1.CreateQueue name opts2).2.deadLetterQueue
        = (b.CreateQueue name opts).2.deadLetterQueue) := by
  constructor
  · intro b name
    rcases hl : b.topics.lookup name with _ | t
    · simp [Broker.CreateTopic, hl, List.lookup]
    · simp [Broker.CreateTopic, hl]
  · intro b name opts opts2
    have hmain :
        ((b.CreateQueue name opts).1.CreateQueue name opts2).2 = (b.CreateQueue name opts).2 ∧
        ((b.CreateQueue name opts).1.CreateQueue name opts2).1 = (b.CreateQueue name opts).1 := by
      rcases hl : b.queues.lookup name with _ | q
      · simp [Broker.CreateQueue, hl, List.lookup]
      · simp [Broker.CreateQueue, hl]
    exact ⟨hmain.1, hmain.2, by rw [hmain.1], by rw [hmain.1], by rw [hmain.1]⟩

/-- An empty demo idempotency store with a 10-unit TTL. -/
def demoStore : InMemoryIdempotencyStore := { processed := [], ttl := 10 }

/-- Claim C6: `MarkProcessed id` followed immediately by `IsProcessed id`
returns true; once strictly more than the TTL has elapsed since the most
recent mark, `IsProcessed id` returns false; and `IsProcessed id` with no
entry for `id` returns false. -/
theorem idempotency_store_ttl_spec :
    (∀ (s : InMemoryIdempotencyStore) (now : Nat) (id : String),
      (s.MarkProcessed now id).1.IsProcessed now id = true)
    ∧ (∀ (s : InMemoryIdempotencyStore) (now now2 : Nat) (id : String),
      s.ttl < now2 - now →
      (s.MarkProcessed now id).1.IsProcessed now2 id = false)
    ∧ (∀ (s : InMemoryIdempotencyStore) (now : Nat) (id : String),
      s.processed.lookup id = none →
      s.IsProcessed now id = false) := by
  refine ⟨?_, ?_, ?_⟩
  · intro s now id
    simp [InMemoryIdempotencyStore.MarkProcessed, InMemoryIdempotencyStore.IsProcessed,
      List.lookup]
  · intro s now now2 id h
    simp [InMemoryIdempotencyStore.MarkProcessed, InMemoryIdempotencyStore.IsProcessed,
      List.lookup, h]
  · intro s now id h
    simp [InMemoryIdempotencyStore.IsProcessed, h]

/-- Witness for C6 at concrete inputs: mark at instant 5 with TTL 10, then
check at 5 (true), at 100 where 95 > 10 (false), and an unknown id (false). -/
theorem idempotency_store_ttl_spec_witness :
    ((demoStore.MarkProcessed 5 "a").1.IsProcessed 5 "a" = true) ∧
    (demoStore.ttl < 100 - 5 ∧ (demoStore.MarkProcessed 5 "a").1.IsProcessed 100 "a" = false) ∧
    (demoStore.processed.lookup "b" = none ∧ demoStore.IsProcessed 7 "b" = false) :=
  ⟨idempotency_store_ttl_spec.1 demoStore 5 "a",
   ⟨by decide, idempotency_store_ttl_spec.2.1 demoStore 5 100 "a" (by decide)⟩,
   ⟨rfl, idempotency_store_ttl_spec.2.2 demoStore 7 "b" rfl⟩⟩

/-- Claim C7: the handler produced by `IdempotentWorker`'s wrapping returns
success without invoking the inner handler when the store reports the id
processed (the result is independent of the inner handler and the store is
untouched); otherwise it invokes the inner handler, and marks the id
processed only when the inner handler succeeds — on inner failure the store
is unchanged and the error is returned. -/
theorem idempotent_wrapper_spec :
    (∀ (store : InMemoryIdempotencyStore) (h1 h2 : Message → Except String Unit)
      (now : Nat) (msg : Message),
      store.IsProcessed now msg.ID = true →
      idempotentWrappedHandler store h1 now msg = (store, .ok ()) ∧
      idempotentWrappedHandler store h1 now msg = idempotentWrappedHandler store h2 now msg)
    ∧ (∀ (store : InMemoryIdempotencyStore) (handler : Message → Except String Unit)
      (now : Nat) (msg : Message) (e : String),
      store.IsProcessed now msg.ID = false →
      handler msg = .error e →
      idempotentWrappedHandler store handler now msg = (store, .error e))
    ∧ (∀ (store : InMemoryIdempotencyStore) (handler : Message → Except String Unit)
      (now : Nat) (msg : Message),
      store.IsProcessed now msg.ID = false →
      handler msg = .ok () →
      idempotentWrappedHandler store handler now msg
        = ((store.MarkProcessed now msg.ID).1, .ok ()) ∧
      (idempotentWrappedHandler store handler now msg).1.IsProcessed now msg.ID = true) := by
  refine ⟨?_, ?_, ?_⟩
  · intro store h1 h2 now msg hp
    constructor
    · simp [idempotentWrappedHandler, hp]
    · simp [idempotentWrappedHandler, hp]
  · intro store handler now msg e hp he
    simp [idempotentWrappedHandler, hp, he]
  · intro store handler now msg hp hok
    have heq : idempotentWrappedHandler store handler now msg
        = ((store.MarkProcessed now msg.ID).1, .ok ()) := by
      simp [idempotentWrappedHandler, hp, hok, InMemoryIdempotencyStore.MarkProcessed]
    refine ⟨heq, ?_⟩
    rw [heq]
    simp [InMemoryIdempotencyStore.MarkProcessed, InMemoryIdempotencyStore.IsProcessed,
      List.lookup]

/-- A demo store already holding `demoMsg`'s id. -/
def demoStoreMarked : InMemoryIdempotencyStore := { processed := [("orig", 5)], ttl := 10 }

/-- A demo handler that always succeeds. -/
def demoHandlerOk : Message → Except String Unit := fun _ => .ok ()

/-- A demo handler that always fails. -/
def demoHandlerFail : Message → Except String Unit := fun _ => .error "boom"

/-- Witness for C7 at concrete inputs: a processed id short-circuits even a
failing handler; an unprocessed id propagates the failure without marking,
and marks on success. -/
theorem idempotent_wrapper_spec_witness :
    (idempotentWrappedHandler demoStoreMarked demoHandlerFail 5 demoMsg
        = (demoStoreMarked, .ok ()) ∧
      idempotentWrappedHandler demoStoreMarked demoHandlerFail 5 demoMsg
        = idempotentWrappedHandler demoStoreMarked demoHandlerOk 5 demoMsg) ∧
    (idempotentWrappedHandler demoStore demoHandlerFail 5 demoMsg
        = (demoStore, .error "boom")) ∧
    (idempotentWrappedHandler demoStore demoHandlerOk 5 demoMsg
        = ((demoStore.MarkProcessed 5 demoMsg.ID).1, .ok ()) ∧
      (idempotentWrappedHandler demoStore demoHandlerOk 5 demoMsg).1.IsProcessed 5 demoMsg.ID
        = true) :=
  ⟨idempotent_wrapper_spec.1 demoStoreMarked demoHandlerFail demoHandlerOk 5 demoMsg (by decide),
   idempotent_wrapper_spec.2.1 demoStore demoHandlerFail 5 demoMsg "boom" (by decide) rfl,
   idempotent_wrapper_spec.2.2 demoStore demoHandlerOk 5 demoMsg (by decide) rfl⟩

/-- Per-subscriber size effect of the fan-out loop, with no assumption on
the uuid generator: every subscriber gains exactly one message. -/
theorem publishFanOut_get?_length (tn : String) (gen : Nat → String) (now : Nat) (msg : Message) :
    ∀ (subs : List Queue) (k i : Nat) (q0 : Queue), subs.get? i = some q0 →
      ∃ q1, (publishFanOut tn gen now msg subs k).1.get? i = some q1 ∧
        q1.messages.length = q0.messages.length + 1 := by
  intro subs
  induction subs with
  | nil => intro k i q0 h0; simp at h0
  | cons q rest ih =>
    intro k i q0 h0
    cases i with
    | zero =>
      have hq : q = q0 := by simpa using h0
      subst hq
      exact ⟨(q.Enqueue (gen (k + 2)) now
          (((msg.Clone (gen k)).SetMetadata "source_topic" tn).SetMetadata
            "delivery_id" (gen (k + 1)))).1,
        by simp [publishFanOut], enqueue_length _ _ _ _⟩
    | succ i =>
      have h0' : rest.get? i = some q0 := by simpa using h0
      obtain ⟨q1, hq1, hlen⟩ := ih (k + 3) i q0 h0'
      exact ⟨q1, by simpa [publishFanOut] using hq1, hlen⟩

/-- Claim C8 formalized exactly as stated: on a `Publish` whose context
deadline is already exceeded, delivery to the not-yet-reached subscribers
(at the start of fan-out: all of them) is aborted, i.e. every subscriber
queue's message sequence is unchanged. -/
def deadlineAbortClaim : Prop :=
  ∀ (t : Topic) (ctx : Context) (gen : Nat → String) (k now : Nat) (msg : Message),
    ctx.deadlineExceeded now = true →
    (t.Publish ctx gen k now msg).1.subscribers.map Queue.messages
      = t.subscribers.map Queue.messages

/-- Counterexample refuting claim C8: publishing `demoMsg` on `demoTopic`
at instant 50 under a context whose deadline (0) is long exceeded still
deposits a clone into both subscriber queues. -/
theorem publish_deadline_abort_cex : ¬ deadlineAbortClaim := by
  intro hclaim
  have h := hclaim demoTopic ⟨some 0⟩ demoGen 0 50 demoMsg (by decide)
  revert h
  decide

/-- Amended C8: `Topic.Publish` never consults the context, so an exceeded
deadline does not abort fan-out — the result is identical under any other
context, and even with the deadline already exceeded every subscriber queue
still gains exactly one message (subscribers already enqueued keep their
copy, as `Publish` never removes messages). -/
theorem publish_ignores_context_spec :
    ∀ (t : Topic) (ctx ctx2 : Context) (gen : Nat → String) (k now : Nat) (msg : Message),
      ctx.deadlineExceeded now = true →
      t.Publish ctx gen k now msg = t.Publish ctx2 gen k now msg ∧
      (∀ (i : Nat) (q0 : Queue), t.subscribers.get? i = some q0 →
        ∃ q1, (t.Publish ctx gen k now msg).1.subscribers.get? i = some q1 ∧
          q1.messages.length = q0.messages.length + 1) := by
  intro t ctx ctx2 gen k now msg hdl
  refine ⟨rfl, ?_⟩
  intro i q0 h0
  exact publishFanOut_get?_length t.name gen now
    (if msg.Timestamp = 0 then { msg with Timestamp := now } else msg) t.subscribers k i q0 h0

/-- Witness for the amended C8 at concrete inputs: with deadline 0 already
exceeded at instant 50, the publish result equals the no-deadline publish
and subscriber 1 still gains its copy. -/
theorem publish_ignores_context_spec_witness :
    demoTopic.Publish ⟨some 0⟩ demoGen 0 50 demoMsg
      = demoTopic.Publish ⟨none⟩ demoGen 0 50 demoMsg ∧
    (∃ q1, (demoTopic.Publish ⟨some 0⟩ demoGen 0 50 demoMsg).1.subscribers.get? 1 = some q1 ∧
      q1.messages.length = demoDLQ.messages.length + 1) := by
  have H := publish_ignores_context_spec demoTopic ⟨some 0⟩ ⟨none⟩ demoGen 0 50 demoMsg (by decide)
  exact ⟨H.1, H.2 1 demoDLQ rfl⟩

/-- Claim C9 formalized exactly as stated: the message appended by any
`Enqueue` call satisfies `retry_count ≤ max_retries` of the target queue. -/
def enqueueRetryBoundClaim : Prop :=
  ∀ (q : Queue) (fid : String) (now : Nat) (msg m : Message),
    (q.Enqueue fid now msg).1.messages.getLast? = some m →
    m.RetryCount ≤ q.maxRetries

/-- Counterexample refuting claim C9: `Enqueue` performs no retry-count
check, so enqueuing a message with `retry_count = 5` into a queue with
`max_retries = 3` appends it unchanged, violating the bound. -/
theorem enqueue_retry_bound_cex : ¬ enqueueRetryBoundClaim := by
  intro hclaim
  have h := hclaim (Queue.mk "q9" [] 30 3 none demoStats) "f" 1
    { demoVisible with RetryCount := 5 } { demoVisible with RetryCount := 5 } (by decide)
  revert h
  decide

/-- The message `Enqueue` appends carries the argument's retry count
(id/timestamp defaulting never touches it). -/
theorem enqueue_getLast? (q : Queue) (fid : String) (now : Nat) (msg : Message) :
    ∃ m, (q.Enqueue fid now msg).1.messages.getLast? = some m ∧
      m.RetryCount = msg.RetryCount := by
  by_cases hid : msg.ID = ""
  · by_cases ht : msg.Timestamp = 0
    · exact ⟨{ msg with ID := fid, Timestamp := now },
        by simp [Queue.Enqueue, hid, ht], rfl⟩
    · exact ⟨{ msg with ID := fid }, by simp [Queue.Enqueue, hid, ht], rfl⟩
  · by_cases ht : msg.Timestamp = 0
    · exact ⟨{ msg with Timestamp := now }, by simp [Queue.Enqueue, hid, ht], rfl⟩
    · exact ⟨msg, by simp [Queue.Enqueue, hid, ht], rfl⟩

/-- Amended C9: `Enqueue` itself performs no retry-count validation — the
invariant holds because every message the core itself enqueues is freshly
created or cloned with `retry_count = 0`: `Clone` always resets the retry
count to 0, and enqueuing any message with `retry_count = 0` into a queue
with nonnegative `max_retries` appends a message satisfying
`retry_count ≤ max_retries`. -/
theorem enqueue_retry_bound_amended_spec :
    (∀ (m : Message) (cid : String), (m.Clone cid).RetryCount = 0)
    ∧ (∀ (q : Queue) (fid : String) (now : Nat) (msg : Message),
      msg.RetryCount = 0 →
      0 ≤ q.maxRetries →
      ∃ m, (q.Enqueue fid now msg).1.messages.getLast? = some m ∧
        m.RetryCount ≤ q.maxRetries) := by
  constructor
  · intro m cid; rfl
  · intro q fid now msg h0 hmax
    obtain ⟨m, hm, hr⟩ := enqueue_getLast? q fid now msg
    exact ⟨m, hm, by rw [hr, h0]; exact hmax⟩

/-- Witness for the amended C9 at concrete inputs. -/
theorem enqueue_retry_bound_amended_spec_witness :
    (demoLeased.Clone "c9").RetryCount = 0 ∧
    (demoMsg.RetryCount = 0 ∧ (0:Int) ≤ 3 ∧
      ∃ m, ((Queue.mk "q9" [] 30 3 none demoStats).Enqueue "f" 1 demoMsg).1.messages.getLast?
          = some m ∧
        m.RetryCount ≤ (Queue.mk "q9" [] 30 3 none demoStats).maxRetries) :=
  ⟨enqueue_retry_bound_amended_spec.1 demoLeased "c9",
   ⟨rfl, by decide,
    enqueue_retry_bound_amended_spec.2 (Queue.mk "q9" [] 30 3 none demoStats) "f" 1 demoMsg
      rfl (by decide)⟩⟩

/-- Claim C10: a clone's `visible_at` is the zero time and its
`receipt_handle` is the empty string, so the clone is immediately visible
at every instant and holds no lease — regardless of the lease state of the
message it was cloned from (`Clone` reads and never writes its receiver,
which the purely functional embedding makes intrinsic). -/
theorem clone_unleased_spec :
    ∀ (m : Message) (fid : String),
      (m.Clone fid).VisibleAt = 0 ∧
      (m.Clone fid).ReceiptHandle = "" ∧
      ∀ now, (m.Clone fid).IsVisible now = true := by
  intro m fid
  exact ⟨rfl, rfl, fun now => by simp [Message.Clone, Message.IsVisible]⟩

end BrokerModel
